import Mathlib

/-!
Verification development for the CRYPTIC BTC dashboard repository.

The repository holds three variants of the same program
(`btc_alerts_dashboard.py` — desktop, `btc_alerts_kivy_dashboard.py` —
mobile, `btc_alert_dashboard_web.py` — web).  Each variant has a
`BinanceWebSocket` class aggregating trade ticks into per-timeframe OHLC
candles, an `AlertManager`, an `SLTPCalculator` and a
`calculate_indicators` routine.  Prices and timestamps are embedded as
rationals; timestamps are in seconds, matching
`(ts - last_candle['time']).total_seconds()`.

The desktop and kivy variants store raw prices; the web variant rounds
every stored price to two decimals with Python's `round`, which is
round-half-to-even.  `rhe`/`round2` below model that rounding.
-/

/-- Timeframes configured in all three variants: `TIMEFRAMES = ['1m', '30m', '1h', '4h']`. -/
inductive Timeframe
  | m1
  | m30
  | h1
  | h4
deriving DecidableEq

/-- Embeds `BinanceWebSocket.get_seconds`: bucket length in seconds per timeframe. -/
def get_seconds : Timeframe → ℤ
  | .m1 => 60
  | .m30 => 1800
  | .h1 => 3600
  | .h4 => 14400

/-- Round-half-to-even on a rational, modelling Python's builtin `round` on the
half-way tie convention (bankers' rounding).  Away from ties it agrees with
Mathlib's `round` (half up). -/
def rhe (x : ℚ) : ℤ :=
  if Int.fract x = 1 / 2 ∧ 2 ∣ ⌊x⌋ then ⌊x⌋ else round x

/-- Embeds Python's `round(x, 2)` as used throughout the web variant. -/
def round2 (x : ℚ) : ℚ :=
  (rhe (100 * x) : ℚ) / 100

theorem rhe_intCast (n : ℤ) : rhe (n : ℚ) = n := by
  unfold rhe
  rw [Int.fract_intCast]
  simp [round_intCast]

theorem rhe_le_add_half (x : ℚ) : (rhe x : ℚ) ≤ x + 1 / 2 := by
  unfold rhe
  split
  · calc ((⌊x⌋ : ℤ) : ℚ) ≤ x := Int.floor_le x
    _ ≤ x + 1 / 2 := by linarith
  · exact round_le_add_half x

theorem sub_half_le_rhe (x : ℚ) : x - 1 / 2 ≤ (rhe x : ℚ) := by
  unfold rhe
  split
  · rename_i h
    have hf : x - (⌊x⌋ : ℚ) = Int.fract x := Int.self_sub_floor x
    rw [h.1] at hf
    linarith
  · linarith [sub_half_lt_round x]

theorem rhe_mono {x y : ℚ} (h : x ≤ y) : rhe x ≤ rhe y := by
  rcases eq_or_lt_of_le h with rfl | hlt
  · exact le_refl _
  · by_contra hc
    push_neg at hc
    have h1 : (rhe y : ℚ) + 1 ≤ (rhe x : ℚ) := by exact_mod_cast hc
    have h2 := rhe_le_add_half x
    have h3 := sub_half_le_rhe y
    linarith

theorem round2_mono {x y : ℚ} (h : x ≤ y) : round2 x ≤ round2 y := by
  unfold round2
  have := rhe_mono (by linarith : 100 * x ≤ 100 * y)
  have : ((rhe (100 * x) : ℤ) : ℚ) ≤ ((rhe (100 * y) : ℤ) : ℚ) := by exact_mod_cast this
  linarith

theorem round2_grid (k : ℤ) : round2 ((k : ℚ) / 100) = (k : ℚ) / 100 := by
  unfold round2
  rw [show (100 : ℚ) * ((k : ℚ) / 100) = (k : ℚ) by ring, rhe_intCast]

theorem round2_idem (x : ℚ) : round2 (round2 x) = round2 x := by
  unfold round2
  rw [show (100 : ℚ) * ((rhe (100 * x) : ℚ) / 100) = ((rhe (100 * x) : ℤ) : ℚ) by ring,
    rhe_intCast]

/-- Candle record: embeds the dict
`{'time': ts, 'open': ..., 'high': ..., 'low': ..., 'close': ...}` kept in
`BinanceWebSocket.candles[tf]`.  The `open` field is spelled `open_` because
`open` is a Lean keyword. -/
structure Candle where
  time : ℚ
  open_ : ℚ
  high : ℚ
  low : ℚ
  close : ℚ
deriving DecidableEq

/-- Embeds the dict literal appended by `add_candle` in the desktop and kivy
variants: every OHLC field starts at the raw tick price, `time` is the tick
timestamp. -/
def new_candle (ts price : ℚ) : Candle :=
  { time := ts, open_ := price, high := price, low := price, close := price }

/-- Embeds the dict literal appended by `add_candle` in the web variant: every
OHLC field is `round(price, 2)`. -/
def new_candle_web (ts price : ℚ) : Candle :=
  { time := ts, open_ := round2 price, high := round2 price,
    low := round2 price, close := round2 price }

/-- Embeds `BinanceWebSocket.update_last_candle` of the desktop and kivy
variants: mutate the last candle in place, leaving `time` and `open` alone. -/
def update_last_candle (c : Candle) (price : ℚ) : Candle :=
  { c with close := price, high := max c.high price, low := min c.low price }

/-- Embeds `BinanceWebSocket.update_last_candle` of the web variant, which
rounds each mutated field to two decimals. -/
def update_last_candle_web (c : Candle) (price : ℚ) : Candle :=
  { c with
    close := round2 price
    high := round2 (max c.high price)
    low := round2 (min c.low price) }

/-- Capacity constant of the web variant (`MAX_CANDLES = 250`); the desktop
and kivy variants use the literal `100` at the same place. -/
def MAX_CANDLES : ℕ := 250

/-- Embeds `BinanceWebSocket.add_candle` (desktop/kivy): append a fresh
candle, then `if len(...) > N: pop(0)`.  The capacity `N` is `100` in the
desktop and kivy variants. -/
def add_candle (N : ℕ) (s : List Candle) (ts price : ℚ) : List Candle :=
  if N < (s ++ [new_candle ts price]).length then (s ++ [new_candle ts price]).drop 1
  else s ++ [new_candle ts price]

/-- Embeds `BinanceWebSocket.add_candle` of the web variant (`N` is
`MAX_CANDLES`). -/
def add_candle_web (N : ℕ) (s : List Candle) (ts price : ℚ) : List Candle :=
  if N < (s ++ [new_candle_web ts price]).length then (s ++ [new_candle_web ts price]).drop 1
  else s ++ [new_candle_web ts price]

/-- Embeds `BinanceWebSocket.update_candles` (desktop/kivy): on an empty
series, or when `(ts - last['time']).total_seconds() >= get_seconds(tf)`,
open a new candle, otherwise update the last one in place. -/
def update_candles (N : ℕ) (tf : Timeframe) (s : List Candle) (ts price : ℚ) :
    List Candle :=
  match s.getLast? with
  | none => add_candle N s ts price
  | some last =>
      if (get_seconds tf : ℚ) ≤ ts - last.time then add_candle N s ts price
      else s.dropLast ++ [update_last_candle last price]

/-- Embeds `BinanceWebSocket.update_candles` of the web variant. -/
def update_candles_web (N : ℕ) (tf : Timeframe) (s : List Candle) (ts price : ℚ) :
    List Candle :=
  match s.getLast? with
  | none => add_candle_web N s ts price
  | some last =>
      if (get_seconds tf : ℚ) ≤ ts - last.time then add_candle_web N s ts price
      else s.dropLast ++ [update_last_candle_web last price]

/-- Embeds `BinanceWebSocket.process_trade` (desktop/kivy): one tick is folded
into every timeframe series independently. -/
def process_trade (st : Timeframe → List Candle) (ts price : ℚ) :
    Timeframe → List Candle :=
  fun tf => update_candles 100 tf (st tf) ts price

/-- Embeds `BinanceWebSocket.process_trade` of the web variant. -/
def process_trade_web (st : Timeframe → List Candle) (ts price : ℚ) :
    Timeframe → List Candle :=
  fun tf => update_candles_web MAX_CANDLES tf (st tf) ts price

/-- Ingesting a list of `(timestamp, price)` ticks into one timeframe series,
starting from the empty series the constructor sets up (desktop/kivy
variants); by `process_trade` each timeframe evolves independently, so the
per-timeframe fold is exactly what `process_trade` iterates. -/
def ingest_run (tf : Timeframe) (ticks : List (ℚ × ℚ)) : List Candle :=
  ticks.foldl (fun s t => update_candles 100 tf s t.1 t.2) []

/-- Web-variant ingest of a tick list into one timeframe series. -/
def ingest_run_web (tf : Timeframe) (ticks : List (ℚ × ℚ)) : List Candle :=
  ticks.foldl (fun s t => update_candles_web MAX_CANDLES tf s t.1 t.2) []

theorem process_trade_apply (st : Timeframe → List Candle) (ts price : ℚ)
    (tf : Timeframe) : process_trade st ts price tf = update_candles 100 tf (st tf) ts price :=
  rfl

/-- Candle invariant claimed by the spec: `low ≤ {open, close} ≤ high`. -/
def candle_inv (c : Candle) : Prop :=
  c.low ≤ c.open_ ∧ c.open_ ≤ c.high ∧ c.low ≤ c.close ∧ c.close ≤ c.high

/-- Auxiliary invariant of the web variant: the mutable `high`/`low` fields
are already on the 2-decimal grid (they are always produced by `round2`). -/
def gridded (c : Candle) : Prop :=
  round2 c.high = c.high ∧ round2 c.low = c.low

/-- Projection to the immutable identity of a candle: its `time` and its
`open` price. -/
def opens (l : List Candle) : List (ℚ × ℚ) :=
  l.map (fun c => (c.time, c.open_))

theorem getLast?_decomp {α : Type} {l : List α} {a : α} (h : l.getLast? = some a) :
    l = l.dropLast ++ [a] :=
  (List.dropLast_append_getLast? a h).symm

theorem mem_of_getLast? {α : Type} {l : List α} {a : α} (h : l.getLast? = some a) :
    a ∈ l := by
  rw [getLast?_decomp h]
  exact List.mem_append_right _ (List.mem_singleton.mpr rfl)

theorem getLast?_capped {α : Type} {N : ℕ} (hN : 1 ≤ N) (s : List α) (c : α) :
    (if N < (s ++ [c]).length then (s ++ [c]).drop 1 else s ++ [c]).getLast? = some c := by
  split
  · cases s with
    | nil => simp at *; omega
    | cons x xs =>
        rw [List.cons_append, List.drop_one, List.tail_cons]
        exact List.getLast?_concat _
  · exact List.getLast?_concat _

theorem add_candle_getLast {N : ℕ} (hN : 1 ≤ N) (s : List Candle) (ts p : ℚ) :
    (add_candle N s ts p).getLast? = some (new_candle ts p) :=
  getLast?_capped hN s _

theorem add_candle_web_getLast {N : ℕ} (hN : 1 ≤ N) (s : List Candle) (ts p : ℚ) :
    (add_candle_web N s ts p).getLast? = some (new_candle_web ts p) :=
  getLast?_capped hN s _

theorem round2_fix_max {a b : ℚ} (ha : round2 a = a) (hb : round2 b = b) :
    round2 (max a b) = max a b := by
  rcases max_choice a b with h | h <;> rw [h] <;> assumption

theorem round2_fix_min {a b : ℚ} (ha : round2 a = a) (hb : round2 b = b) :
    round2 (min a b) = min a b := by
  rcases min_choice a b with h | h <;> rw [h] <;> assumption

/-- C1.  For every ingested tick and every configured timeframe (with bucket
lengths 60/1800/3600/14400 seconds via `get_seconds`): if the series is empty
or the elapsed time since the last candle's bucket start is at least the
bucket length, `update_candles` appends a new candle whose
`open = high = low = close` all equal the tick price and whose `time` is the
tick's timestamp; otherwise it mutates the last candle in place, setting
`close = price`, `high = max(high, price)`, `low = min(low, price)` and
leaving `open` and `time` unchanged.  The desktop/kivy variant stores the raw
price; in the web variant every ingested price is already on the 2-decimal
grid (`on_message` rounds it), under which the stored fields equal the tick
price as well. -/
theorem ingest_branch_semantics (N : ℕ) (tf : Timeframe) (s : List Candle)
    (ts p : ℚ) (hN : 1 ≤ N) :
    (new_candle ts p = ⟨ts, p, p, p, p⟩) ∧
    (round2 p = p → new_candle_web ts p = ⟨ts, p, p, p, p⟩) ∧
    (∀ c : Candle, update_last_candle c p
        = ⟨c.time, c.open_, max c.high p, min c.low p, p⟩) ∧
    (∀ c : Candle, round2 p = p → round2 c.high = c.high → round2 c.low = c.low →
        update_last_candle_web c p = ⟨c.time, c.open_, max c.high p, min c.low p, p⟩) ∧
    (s.getLast? = none →
        (update_candles N tf s ts p).getLast? = some (new_candle ts p) ∧
        (update_candles_web N tf s ts p).getLast? = some (new_candle_web ts p)) ∧
    (∀ last : Candle, s.getLast? = some last → (get_seconds tf : ℚ) ≤ ts - last.time →
        (update_candles N tf s ts p).getLast? = some (new_candle ts p) ∧
        (update_candles_web N tf s ts p).getLast? = some (new_candle_web ts p)) ∧
    (∀ last : Candle, s.getLast? = some last → ts - last.time < (get_seconds tf : ℚ) →
        update_candles N tf s ts p = s.dropLast ++ [update_last_candle last p] ∧
        update_candles_web N tf s ts p = s.dropLast ++ [update_last_candle_web last p]) := by
  refine ⟨rfl, ?_, fun c => rfl, ?_, ?_, ?_, ?_⟩
  · intro hp
    simp [new_candle_web, hp]
  · intro c hp hh hl
    simp [update_last_candle_web, update_last_candle, hp, round2_fix_max hh hp,
      round2_fix_min hl hp]
  · intro h
    rw [update_candles, update_candles_web, h]
    exact ⟨add_candle_getLast hN s ts p, add_candle_web_getLast hN s ts p⟩
  · intro last h hc
    rw [update_candles, update_candles_web, h]
    simp only [if_pos hc]
    exact ⟨add_candle_getLast hN s ts p, add_candle_web_getLast hN s ts p⟩
  · intro last h hc
    rw [update_candles, update_candles_web, h]
    simp [if_neg (not_le.mpr hc)]

/-- Witness for C1: a concrete in-window tick takes the mutate-in-place
branch and a concrete bucket-crossing tick takes the new-candle branch. -/
theorem ingest_branch_semantics_witness :
    (update_candles 100 Timeframe.m1 [⟨0, 10, 12, 9, 11⟩] 30 8
        = [Candle.mk 0 10 12 9 11].dropLast ++ [update_last_candle ⟨0, 10, 12, 9, 11⟩ 8]
      ∧ update_candles_web 100 Timeframe.m1 [⟨0, 10, 12, 9, 11⟩] 30 8
        = [Candle.mk 0 10 12 9 11].dropLast ++ [update_last_candle_web ⟨0, 10, 12, 9, 11⟩ 8])
    ∧ (update_candles 100 Timeframe.m1 [⟨0, 10, 12, 9, 11⟩] 7200 8).getLast?
        = some (new_candle 7200 8) := by
  constructor
  · exact (ingest_branch_semantics 100 Timeframe.m1 [⟨0, 10, 12, 9, 11⟩] 30 8
      (by norm_num)).2.2.2.2.2.2 ⟨0, 10, 12, 9, 11⟩ rfl (by norm_num [get_seconds])
  · exact ((ingest_branch_semantics 100 Timeframe.m1 [⟨0, 10, 12, 9, 11⟩] 7200 8
      (by norm_num)).2.2.2.2.2.1 ⟨0, 10, 12, 9, 11⟩ rfl (by norm_num [get_seconds])).1

theorem foldl_pres {α β : Type} (P : α → Prop) (f : α → β → α)
    (hf : ∀ a b, P a → P (f a b)) :
    ∀ (l : List β) (a : α), P a → P (l.foldl f a) := by
  intro l
  induction l with
  | nil => intro a h; exact h
  | cons x xs ih => intro a h; exact ih _ (hf a x h)

theorem length_capped {α : Type} {N : ℕ} (s : List α) (c : α) (h : s.length ≤ N) :
    (if N < (s ++ [c]).length then (s ++ [c]).drop 1 else s ++ [c]).length ≤ N := by
  split <;> simp_all

theorem dropLast_succ_length {α : Type} {l : List α} {a : α}
    (h : l.getLast? = some a) : l.length = l.dropLast.length + 1 := by
  conv_lhs => rw [getLast?_decomp h]
  simp

theorem update_candles_length {N : ℕ} {tf : Timeframe} {s : List Candle}
    {ts p : ℚ} (h : s.length ≤ N) : (update_candles N tf s ts p).length ≤ N := by
  unfold update_candles
  split
  · exact length_capped s _ h
  · rename_i last hl
    split
    · exact length_capped s _ h
    · have h2 := dropLast_succ_length hl
      simp only [List.length_append, List.length_singleton]
      omega

theorem update_candles_web_length {N : ℕ} {tf : Timeframe} {s : List Candle}
    {ts p : ℚ} (h : s.length ≤ N) : (update_candles_web N tf s ts p).length ≤ N := by
  unfold update_candles_web
  split
  · exact length_capped s _ h
  · rename_i last hl
    split
    · exact length_capped s _ h
    · have h2 := dropLast_succ_length hl
      simp only [List.length_append, List.length_singleton]
      omega

/-- C3.  A timeframe series never exceeds its capacity after an ingest
(100 candles in the desktop/kivy variants, `MAX_CANDLES = 250` in the web
variant), and when creating a new candle overflows the capacity, exactly the
oldest candle (index 0) is evicted, so insertion order stays chronological
order (the survivors are `s.drop 1`, in their original order, with the fresh
candle appended). -/
theorem series_capacity_fifo (tf : Timeframe) :
    (∀ ticks : List (ℚ × ℚ), (ingest_run tf ticks).length ≤ 100) ∧
    (∀ ticks : List (ℚ × ℚ), (ingest_run_web tf ticks).length ≤ MAX_CANDLES) ∧
    (∀ (N : ℕ) (s : List Candle) (ts p : ℚ), s.length ≤ N →
        (update_candles N tf s ts p).length ≤ N ∧
        (update_candles_web N tf s ts p).length ≤ N) ∧
    (∀ (N : ℕ) (s : List Candle) (ts p : ℚ), s.length < N →
        add_candle N s ts p = s ++ [new_candle ts p] ∧
        add_candle_web N s ts p = s ++ [new_candle_web ts p]) ∧
    (∀ (N : ℕ) (s : List Candle) (ts p : ℚ), 1 ≤ N → s.length = N →
        add_candle N s ts p = s.drop 1 ++ [new_candle ts p] ∧
        add_candle_web N s ts p = s.drop 1 ++ [new_candle_web ts p]) := by
  refine ⟨?_, ?_, ?_, ?_, ?_⟩
  · intro ticks
    unfold ingest_run
    exact foldl_pres (fun s : List Candle => s.length ≤ 100) _
      (fun s t h => update_candles_length h) ticks [] (by simp)
  · intro ticks
    unfold ingest_run_web
    exact foldl_pres (fun s : List Candle => s.length ≤ MAX_CANDLES) _
      (fun s t h => update_candles_web_length h) ticks [] (by simp)
  · intro N s ts p h
    exact ⟨update_candles_length h, update_candles_web_length h⟩
  · intro N s ts p h
    constructor
    · simp only [add_candle]
      rw [if_neg (by simp only [List.length_append, List.length_singleton]; omega)]
    · simp only [add_candle_web]
      rw [if_neg (by simp only [List.length_append, List.length_singleton]; omega)]
  · intro N s ts p hN h
    have hs : 1 ≤ s.length := by omega
    constructor
    · simp only [add_candle]
      rw [if_pos (by simp only [List.length_append, List.length_singleton]; omega),
        List.drop_append_of_le_length hs]
    · simp only [add_candle_web]
      rw [if_pos (by simp only [List.length_append, List.length_singleton]; omega),
        List.drop_append_of_le_length hs]

/-- Witness for C3: with capacity 2 and a full series, a bucket-crossing tick
evicts exactly the oldest candle and keeps the length at capacity. -/
theorem series_capacity_fifo_witness :
    add_candle 2 [⟨0, 1, 1, 1, 1⟩, ⟨60, 2, 2, 2, 2⟩] 120 3
      = [Candle.mk 0 1 1 1 1, ⟨60, 2, 2, 2, 2⟩].drop 1 ++ [new_candle 120 3]
    ∧ (update_candles 2 Timeframe.m1 [⟨0, 1, 1, 1, 1⟩, ⟨60, 2, 2, 2, 2⟩] 120 3).length ≤ 2 :=
  ⟨((series_capacity_fifo Timeframe.m1).2.2.2.2 2 [⟨0, 1, 1, 1, 1⟩, ⟨60, 2, 2, 2, 2⟩]
      120 3 (by norm_num) (by rfl)).1,
    ((series_capacity_fifo Timeframe.m1).2.2.1 2 [⟨0, 1, 1, 1, 1⟩, ⟨60, 2, 2, 2, 2⟩]
      120 3 (by norm_num)).1⟩

/-- C10.  An out-of-order tick — timestamp strictly earlier than the last
candle's recorded open time — on a non-empty series never opens a new candle:
the elapsed time is negative, hence below every (positive) bucket length, so
both variants take exactly the same in-place update branch an in-window tick
takes, and the series length is unchanged.  The embedding is a total
function, so no exception is possible on numeric input. -/
theorem out_of_order_tick_in_place (N : ℕ) (tf : Timeframe) (s : List Candle)
    (ts p : ℚ) (last : Candle) (h : s.getLast? = some last) (hts : ts < last.time) :
    update_candles N tf s ts p = s.dropLast ++ [update_last_candle last p] ∧
    update_candles_web N tf s ts p = s.dropLast ++ [update_last_candle_web last p] ∧
    (update_candles N tf s ts p).length = s.length := by
  have hsec : (0 : ℚ) < (get_seconds tf : ℚ) := by cases tf <;> norm_num [get_seconds]
  have hc : ts - last.time < (get_seconds tf : ℚ) := by linarith
  have h1 : update_candles N tf s ts p = s.dropLast ++ [update_last_candle last p] := by
    rw [update_candles, h]
    simp [if_neg (not_le.mpr hc)]
  have h2 : update_candles_web N tf s ts p
      = s.dropLast ++ [update_last_candle_web last p] := by
    rw [update_candles_web, h]
    simp [if_neg (not_le.mpr hc)]
  refine ⟨h1, h2, ?_⟩
  rw [h1]
  have := dropLast_succ_length h
  simp only [List.length_append, List.length_singleton]
  omega

/-- Witness for C10: a concrete tick 60 seconds older than the open time of
the last candle is folded into that candle in place. -/
theorem out_of_order_tick_in_place_witness :
    ((40 : ℚ) < 100) ∧
    update_candles 100 Timeframe.h1 [⟨100, 10, 12, 9, 11⟩] 40 8
      = [Candle.mk 100 10 12 9 11].dropLast ++ [update_last_candle ⟨100, 10, 12, 9, 11⟩ 8] :=
  ⟨by norm_num,
    (out_of_order_tick_in_place 100 Timeframe.h1 [⟨100, 10, 12, 9, 11⟩] 40 8
      ⟨100, 10, 12, 9, 11⟩ rfl (by norm_num)).1⟩

theorem new_candle_inv (ts p : ℚ) : candle_inv (new_candle ts p) :=
  ⟨le_refl p, le_refl p, le_refl p, le_refl p⟩

theorem new_candle_web_inv (ts p : ℚ) :
    candle_inv (new_candle_web ts p) ∧ gridded (new_candle_web ts p) :=
  ⟨⟨le_refl _, le_refl _, le_refl _, le_refl _⟩, round2_idem p, round2_idem p⟩

theorem update_last_candle_inv {c : Candle} (p : ℚ) (h : candle_inv c) :
    candle_inv (update_last_candle c p) := by
  obtain ⟨h1, h2, h3, h4⟩ := h
  refine ⟨?_, ?_, ?_, ?_⟩
  · exact le_trans (min_le_left c.low p) h1
  · exact le_trans h2 (le_max_left c.high p)
  · exact min_le_right c.low p
  · exact le_max_right c.high p

theorem update_last_candle_web_inv {c : Candle} (p : ℚ) (h : candle_inv c)
    (hg : gridded c) :
    candle_inv (update_last_candle_web c p) ∧ gridded (update_last_candle_web c p) := by
  obtain ⟨h1, h2, h3, h4⟩ := h
  obtain ⟨hh, hl⟩ := hg
  refine ⟨⟨?_, ?_, ?_, ?_⟩, round2_idem _, round2_idem _⟩
  · calc round2 (min c.low p) ≤ round2 c.low := round2_mono (min_le_left _ _)
    _ = c.low := hl
    _ ≤ c.open_ := h1
  · calc c.open_ ≤ c.high := h2
    _ = round2 c.high := hh.symm
    _ ≤ round2 (max c.high p) := round2_mono (le_max_left _ _)
  · exact round2_mono (min_le_right _ _)
  · exact round2_mono (le_max_right _ _)

theorem mem_add_candle {N : ℕ} {s : List Candle} {ts p : ℚ} {c : Candle}
    (hc : c ∈ add_candle N s ts p) : c ∈ s ∨ c = new_candle ts p := by
  unfold add_candle at hc
  split at hc
  · rcases List.mem_append.mp (List.mem_of_mem_drop hc) with h1 | h2
    · exact Or.inl h1
    · exact Or.inr (List.mem_singleton.mp h2)
  · rcases List.mem_append.mp hc with h1 | h2
    · exact Or.inl h1
    · exact Or.inr (List.mem_singleton.mp h2)

theorem mem_add_candle_web {N : ℕ} {s : List Candle} {ts p : ℚ} {c : Candle}
    (hc : c ∈ add_candle_web N s ts p) : c ∈ s ∨ c = new_candle_web ts p := by
  unfold add_candle_web at hc
  split at hc
  · rcases List.mem_append.mp (List.mem_of_mem_drop hc) with h1 | h2
    · exact Or.inl h1
    · exact Or.inr (List.mem_singleton.mp h2)
  · rcases List.mem_append.mp hc with h1 | h2
    · exact Or.inl h1
    · exact Or.inr (List.mem_singleton.mp h2)

theorem update_candles_inv {N : ℕ} {tf : Timeframe} {s : List Candle} {ts p : ℚ}
    (h : ∀ c ∈ s, candle_inv c) :
    ∀ c ∈ update_candles N tf s ts p, candle_inv c := by
  unfold update_candles
  split
  · intro c hc
    rcases mem_add_candle hc with h1 | h2
    · exact h c h1
    · rw [h2]; exact new_candle_inv ts p
  · rename_i last hl
    split
    · intro c hc
      rcases mem_add_candle hc with h1 | h2
      · exact h c h1
      · rw [h2]; exact new_candle_inv ts p
    · intro c hc
      rcases List.mem_append.mp hc with h1 | h2
      · exact h c (List.mem_of_mem_dropLast h1)
      · rw [List.mem_singleton.mp h2]
        exact update_last_candle_inv p (h last (mem_of_getLast? hl))

theorem update_candles_web_inv {N : ℕ} {tf : Timeframe} {s : List Candle} {ts p : ℚ}
    (h : ∀ c ∈ s, candle_inv c ∧ gridded c) :
    ∀ c ∈ update_candles_web N tf s ts p, candle_inv c ∧ gridded c := by
  unfold update_candles_web
  split
  · intro c hc
    rcases mem_add_candle_web hc with h1 | h2
    · exact h c h1
    · rw [h2]; exact new_candle_web_inv ts p
  · rename_i last hl
    split
    · intro c hc
      rcases mem_add_candle_web hc with h1 | h2
      · exact h c h1
      · rw [h2]; exact new_candle_web_inv ts p
    · intro c hc
      rcases List.mem_append.mp hc with h1 | h2
      · exact h c (List.mem_of_mem_dropLast h1)
      · rw [List.mem_singleton.mp h2]
        exact update_last_candle_web_inv p (h last (mem_of_getLast? hl)).1
          (h last (mem_of_getLast? hl)).2

theorem opens_add_candle (N : ℕ) (s : List Candle) (ts p : ℚ) :
    ∃ k, opens (add_candle N s ts p) = (opens s ++ [(ts, p)]).drop k := by
  unfold add_candle
  split
  · refine ⟨1, ?_⟩
    rw [opens, List.map_drop, List.map_append]
    rfl
  · refine ⟨0, ?_⟩
    rw [opens, List.map_append]
    rfl

theorem opens_add_candle_web (N : ℕ) (s : List Candle) (ts p : ℚ) :
    ∃ k, opens (add_candle_web N s ts p) = (opens s ++ [(ts, round2 p)]).drop k := by
  unfold add_candle_web
  split
  · refine ⟨1, ?_⟩
    rw [opens, List.map_drop, List.map_append]
    rfl
  · refine ⟨0, ?_⟩
    rw [opens, List.map_append]
    rfl

theorem opens_update_in_place {s : List Candle} {last : Candle}
    (hl : s.getLast? = some last) (u : Candle) (hu : u.time = last.time)
    (ho : u.open_ = last.open_) :
    opens (s.dropLast ++ [u]) = opens s := by
  conv_rhs => rw [getLast?_decomp hl]
  rw [opens, opens, List.map_append, List.map_append]
  simp [hu, ho]

/-- C2.  After every ingest starting from the empty series, every candle of
every timeframe series satisfies `low ≤ open ≤ high` and
`low ≤ close ≤ high`, in the unrounded desktop/kivy variant and in the web
variant that rounds each stored OHLC field to 2 decimals; moreover a
candle's `open` (and its `time`) never changes after the candle is created:
an in-place update leaves the `(time, open)` projection of the whole series
unchanged, and a new-candle step only drops oldest entries and appends the
fresh candle's pair, never rewriting an existing pair. -/
theorem candle_invariants_preserved (tf : Timeframe) :
    (∀ (ticks : List (ℚ × ℚ)) (c : Candle), c ∈ ingest_run tf ticks → candle_inv c) ∧
    (∀ (ticks : List (ℚ × ℚ)) (c : Candle), c ∈ ingest_run_web tf ticks → candle_inv c) ∧
    (∀ (N : ℕ) (s : List Candle) (ts p : ℚ) (last : Candle),
        s.getLast? = some last → ts - last.time < (get_seconds tf : ℚ) →
        opens (update_candles N tf s ts p) = opens s ∧
        opens (update_candles_web N tf s ts p) = opens s) ∧
    (∀ (N : ℕ) (s : List Candle) (ts p : ℚ),
        (opens (update_candles N tf s ts p) = opens s ∨
          ∃ k, opens (update_candles N tf s ts p) = (opens s ++ [(ts, p)]).drop k) ∧
        (opens (update_candles_web N tf s ts p) = opens s ∨
          ∃ k, opens (update_candles_web N tf s ts p)
            = (opens s ++ [(ts, round2 p)]).drop k)) := by
  refine ⟨?_, ?_, ?_, ?_⟩
  · intro ticks c hc
    unfold ingest_run at hc
    exact foldl_pres (fun s : List Candle => ∀ c ∈ s, candle_inv c) _
      (fun s t h => update_candles_inv h) ticks [] (by simp) c hc
  · intro ticks c hc
    unfold ingest_run_web at hc
    exact (foldl_pres (fun s : List Candle => ∀ c ∈ s, candle_inv c ∧ gridded c) _
      (fun s t h => update_candles_web_inv h) ticks [] (by simp) c hc).1
  · intro N s ts p last hl hc
    constructor
    · rw [update_candles, hl]
      simp only [if_neg (not_le.mpr hc)]
      exact opens_update_in_place hl _ rfl rfl
    · rw [update_candles_web, hl]
      simp only [if_neg (not_le.mpr hc)]
      exact opens_update_in_place hl _ rfl rfl
  · intro N s ts p
    constructor
    · unfold update_candles
      split
      · exact Or.inr (opens_add_candle N s ts p)
      · rename_i last hl
        split
        · exact Or.inr (opens_add_candle N s ts p)
        · exact Or.inl (opens_update_in_place hl (update_last_candle last p) rfl rfl)
    · unfold update_candles_web
      split
      · exact Or.inr (opens_add_candle_web N s ts p)
      · rename_i last hl
        split
        · exact Or.inr (opens_add_candle_web N s ts p)
        · exact Or.inl (opens_update_in_place hl (update_last_candle_web last p) rfl rfl)

/-- Witness for C2: a concrete two-tick run produces an in-range candle, and
a concrete in-window tick leaves the `(time, open)` projection unchanged. -/
theorem candle_invariants_preserved_witness :
    candle_inv (new_candle 0 10) ∧
    opens (update_candles 100 Timeframe.m1 [⟨0, 10, 12, 10, 12⟩] 30 11)
      = opens [Candle.mk 0 10 12 10 12] :=
  ⟨(candle_invariants_preserved Timeframe.m1).1 [(0, 10)] (new_candle 0 10)
      (by simp [ingest_run, update_candles, add_candle]),
    ((candle_invariants_preserved Timeframe.m1).2.2.1 100 [⟨0, 10, 12, 10, 12⟩] 30 11
      ⟨0, 10, 12, 10, 12⟩ rfl (by norm_num [get_seconds])).1⟩

/-- Indicator names configured in all variants:
`INDICATORS = ['RSI', 'EMA20', 'EMA50', 'EMA200', 'BB']`. -/
inductive IndName
  | RSI
  | EMA20
  | EMA50
  | EMA200
  | BB
deriving DecidableEq

/-- Bollinger band components, the three scalars `check_alerts` compares
independently for the `BB` indicator. -/
inductive Band
  | upper
  | middle
  | lower
deriving DecidableEq

/-- Composite alert key `(timeframe, indicatorName[, band])`.  The source
builds the string `f"{tf}_{name}"` or `f"{tf}_{name}_{band}"` and
`check_single_alert` parses it back with `key.split('_', 1)` and
`indicator.split('_')[0]`; since no timeframe, indicator or band name
contains an underscore, that round-trips exactly this structured triple. -/
structure AlertKey where
  tf : Timeframe
  ind : IndName
  band : Option Band
deriving DecidableEq

/-- Per-(timeframe, indicator) alert rule entry of `AlertManager.alerts`. -/
structure AlertConfig where
  enabled : Bool
  threshold : ℚ
deriving DecidableEq

/-- Embeds `AlertManager.trigger_alert` of the web variant: emit (and record)
only if the key is not already in `self.active_alerts`.  Returns the new
active set and whether a notification was emitted. -/
def trigger_alert (active : List AlertKey) (k : AlertKey) : List AlertKey × Bool :=
  if k ∈ active then (active, false) else (k :: active, true)

/-- Embeds `AlertManager.check_single_alert` of the web variant: under the
key's rule, fire when `abs(price - value) <= threshold / 100 * price`. -/
def check_single_alert (price value : ℚ) (cfg : AlertConfig)
    (active : List AlertKey) (k : AlertKey) : List AlertKey × Bool :=
  if cfg.enabled then
    if |price - value| ≤ cfg.threshold / 100 * price then trigger_alert active k
    else (active, false)
  else (active, false)

/-- C4.  For a key with an enabled rule, `check_single_alert` emits a
notification if and only if `|price − value| ≤ (threshold/100)·price` holds
and the key is not already active; on emission the key is added to the
active set, a key already active never emits, and running the same
triggering check twice in a row emits exactly once (the second run is
silent). -/
theorem indicator_alert_dedup (price value : ℚ) (cfg : AlertConfig)
    (active : List AlertKey) (k : AlertKey) (hen : cfg.enabled = true) :
    ((check_single_alert price value cfg active k).2 = true ↔
      (|price - value| ≤ cfg.threshold / 100 * price ∧ k ∉ active)) ∧
    ((check_single_alert price value cfg active k).2 = true →
      (check_single_alert price value cfg active k).1 = k :: active) ∧
    ((check_single_alert price value cfg active k).2 = false →
      (check_single_alert price value cfg active k).1 = active) ∧
    (k ∈ active → (check_single_alert price value cfg active k).2 = false) ∧
    ((check_single_alert price value cfg active k).2 = true →
      (check_single_alert price value cfg
        (check_single_alert price value cfg active k).1 k).2 = false) := by
  by_cases hw : |price - value| ≤ cfg.threshold / 100 * price <;>
    by_cases hk : k ∈ active <;>
      simp [check_single_alert, trigger_alert, hen, hw, hk]

/-- Witness for C4: a concrete enabled rule, in-threshold price and empty
active set emits exactly one notification. -/
theorem indicator_alert_dedup_witness :
    ((check_single_alert 100 100 ⟨true, 1⟩ [] ⟨Timeframe.m1, IndName.RSI, none⟩).2 = true ↔
      (|(100 : ℚ) - 100| ≤ (1 : ℚ) / 100 * 100 ∧
        (⟨Timeframe.m1, IndName.RSI, none⟩ : AlertKey) ∉ ([] : List AlertKey))) ∧
    ((check_single_alert 100 100 ⟨true, 1⟩ [] ⟨Timeframe.m1, IndName.RSI, none⟩).2 = true →
      (check_single_alert 100 100 ⟨true, 1⟩
        (check_single_alert 100 100 ⟨true, 1⟩ [] ⟨Timeframe.m1, IndName.RSI, none⟩).1
        ⟨Timeframe.m1, IndName.RSI, none⟩).2 = false) :=
  ⟨(indicator_alert_dedup 100 100 ⟨true, 1⟩ [] ⟨Timeframe.m1, IndName.RSI, none⟩ rfl).1,
    (indicator_alert_dedup 100 100 ⟨true, 1⟩ [] ⟨Timeframe.m1, IndName.RSI, none⟩
      rfl).2.2.2.2⟩

/-- Embeds Python's `list.remove(x)`: delete the first element equal to `x`
(the scans below only call it on values known to be present, so the
`ValueError` path cannot arise). -/
def remove_first (x : ℚ) : List ℚ → List ℚ
  | [] => []
  | y :: ys => if y = x then ys else y :: remove_first x ys

/-- Embeds the price-alert scan inside `BTCAlertDashboard.update_ui` of the
desktop variant, which iterates `self.active_price_alerts` while calling
`remove` on the same list.  Python's `for` is index-based: each pass reads
the element at the current index of the current (possibly shrunk) list and
then advances the index.  The index grows every pass and the list never
grows, so `length + 1` passes always suffice; `fuel` makes that recursion
structural and `update_ui_price_alerts` supplies enough fuel.  The desktop
tolerance is `0.0001 * current_price`. -/
def price_alert_scan (p : ℚ) : ℕ → ℕ → List ℚ → List ℚ → List ℚ × List ℚ
  | 0, _, lst, fired => (lst, fired)
  | fuel + 1, i, lst, fired =>
      if h : i < lst.length then
        if |p - lst.get ⟨i, h⟩| ≤ 1 / 10000 * p then
          price_alert_scan p fuel (i + 1) (remove_first (lst.get ⟨i, h⟩) lst)
            (fired ++ [lst.get ⟨i, h⟩])
        else
          price_alert_scan p fuel (i + 1) lst fired
      else (lst, fired)

/-- Desktop-variant price-alert pass over the whole pending list. -/
def update_ui_price_alerts (p : ℚ) (lst : List ℚ) : List ℚ × List ℚ :=
  price_alert_scan p (lst.length + 1) 0 lst []

/-- Embeds `AlertManager.check_price_alerts` of the web variant, which
iterates over a copy (`self.price_alerts[:]`) and removes each fired target
from the live list; the net effect on the pending list is to delete exactly
the targets within the `0.001 * current_price` tolerance, keeping the rest
in order, and to fire once per in-tolerance target, left to right (the
argument is the already-rounded `current_price`). -/
def check_price_alerts (p : ℚ) : List ℚ → List ℚ × List ℚ
  | [] => ([], [])
  | t :: rest =>
      if |p - t| ≤ 1 / 1000 * p then
        ((check_price_alerts p rest).1, t :: (check_price_alerts p rest).2)
      else
        (t :: (check_price_alerts p rest).1, (check_price_alerts p rest).2)

/-- C5.  Evaluation at the failing input: with pending targets
`[50000, 50001]` and current price `50000`, both targets are within the
desktop tolerance, yet the desktop scan fires only `50000` and leaves
`50001` pending un-fired for that cycle — removing while iterating skips the
element following each fired one.  The web variant at the same input fires
both and empties the pending list, and a second pass cannot re-fire. -/
theorem price_alert_scan_zero (p : ℚ) (i : ℕ) (lst fired : List ℚ) :
    price_alert_scan p 0 i lst fired = (lst, fired) := rfl

theorem price_alert_scan_succ (p : ℚ) (fuel i : ℕ) (lst fired : List ℚ) :
    price_alert_scan p (fuel + 1) i lst fired =
      if h : i < lst.length then
        if |p - lst.get ⟨i, h⟩| ≤ 1 / 10000 * p then
          price_alert_scan p fuel (i + 1) (remove_first (lst.get ⟨i, h⟩) lst)
            (fired ++ [lst.get ⟨i, h⟩])
        else price_alert_scan p fuel (i + 1) lst fired
      else (lst, fired) := rfl

theorem price_alert_one_shot_eval :
    update_ui_price_alerts 50000 [50000, 50001] = ([50001], [50000]) ∧
    |(50000 : ℚ) - 50001| ≤ 1 / 10000 * 50000 ∧
    check_price_alerts 50000 [50000, 50001] = ([], [50000, 50001]) ∧
    check_price_alerts 50000 [] = ([], []) := by
  refine ⟨?_, by norm_num, ?_, rfl⟩
  · norm_num [update_ui_price_alerts, price_alert_scan_succ, price_alert_scan_zero,
      remove_first, List.get_cons_zero]
  · norm_num [check_price_alerts]

/-- Embeds the position side strings `'LONG'` / `'SHORT'` of
`SLTPCalculator.position_type` (the UIs only ever set these two values). -/
inductive PositionType
  | LONG
  | SHORT
deriving DecidableEq

/-- Embeds the `SLTPCalculator` state of the desktop/kivy variants (the
fields that `calculate_sl` / `calculate_tp` read). -/
structure SLTPCalculator where
  entry_price : ℚ
  position_type : PositionType
  sl_percent : ℚ
  tp_percent : ℚ

/-- Embeds `SLTPCalculator.calculate_sl` of the desktop variant (the
`current_price` argument is accepted and ignored, as in the source). -/
def calculate_sl (s : SLTPCalculator) (current_price : ℚ) : ℚ :=
  match s.position_type with
  | .LONG => s.entry_price * (1 - s.sl_percent / 100)
  | .SHORT => s.entry_price * (1 + s.sl_percent / 100)

/-- Embeds `SLTPCalculator.calculate_tp` of the desktop variant. -/
def calculate_tp (s : SLTPCalculator) (current_price : ℚ) : ℚ :=
  match s.position_type with
  | .LONG => s.entry_price * (1 + s.tp_percent / 100)
  | .SHORT => s.entry_price * (1 - s.tp_percent / 100)

/-- C6.  `calculate_sl` returns `entry × (1 − sl/100)` for LONG and
`entry × (1 + sl/100)` for SHORT; `calculate_tp` returns
`entry × (1 + tp/100)` for LONG and `entry × (1 − tp/100)` for SHORT; at
`entry = 100, sl = 1, tp = 2` this gives SL `99` / TP `102` for LONG and
SL `101` / TP `98` for SHORT. -/
theorem sltp_formulas :
    (∀ e sl tp cp : ℚ,
      calculate_sl ⟨e, PositionType.LONG, sl, tp⟩ cp = e * (1 - sl / 100) ∧
      calculate_sl ⟨e, PositionType.SHORT, sl, tp⟩ cp = e * (1 + sl / 100) ∧
      calculate_tp ⟨e, PositionType.LONG, sl, tp⟩ cp = e * (1 + tp / 100) ∧
      calculate_tp ⟨e, PositionType.SHORT, sl, tp⟩ cp = e * (1 - tp / 100)) ∧
    calculate_sl ⟨100, PositionType.LONG, 1, 2⟩ 0 = 99 ∧
    calculate_tp ⟨100, PositionType.LONG, 1, 2⟩ 0 = 102 ∧
    calculate_sl ⟨100, PositionType.SHORT, 1, 2⟩ 0 = 101 ∧
    calculate_tp ⟨100, PositionType.SHORT, 1, 2⟩ 0 = 98 := by
  refine ⟨fun e sl tp cp => ⟨rfl, rfl, rfl, rfl⟩, ?_, ?_, ?_, ?_⟩ <;>
    norm_num [calculate_sl, calculate_tp]

/-- Close-price series of one timeframe (`df['close']` built from the
candle dicts). -/
def tf_closes (candles : Timeframe → List Candle) (tf : Timeframe) : List ℚ :=
  (candles tf).map Candle.close

/-- Arithmetic mean of a list of rationals (simple average). -/
def list_mean (l : List ℚ) : ℚ := l.sum / l.length

/-- Last `n` entries of a list — the rolling window ending at the most
recent close, whose statistics the last row of a rolling computation
reports. -/
def last_window (n : ℕ) (l : List ℚ) : List ℚ := l.drop (l.length - n)

/-- Modelled from the spec: population variance of a window — the square of
the `population_stddev` that Bollinger Bands use (the `ta` library the
source calls is not part of the repository). -/
def pop_var (l : List ℚ) : ℚ :=
  (l.map (fun x => (x - list_mean l) ^ 2)).sum / l.length

/-- Pins a rational `sd` as the population standard deviation of `l`: the
nonnegative square root of `pop_var l`.  ℚ has no square-root function, so
the Bollinger pipeline takes the stddev as an argument and theorems about
band values constrain it with this predicate. -/
def IsPopStd (l : List ℚ) (sd : ℚ) : Prop := 0 ≤ sd ∧ sd ^ 2 = pop_var l

/-- Bollinger band triple as reported per timeframe. -/
structure BB3 where
  upper : ℚ
  middle : ℚ
  lower : ℚ
deriving DecidableEq

/-- Modelled from the spec: Bollinger Bands(window=20, stddev multiplier=2):
`middle` = simple moving average of the last 20 closes,
`upper/lower = middle ± 2 × population_stddev(last 20 closes)`; `sd` is the
stddev of that window. -/
def bollinger (closes : List ℚ) (sd : ℚ) : BB3 :=
  { upper := list_mean (last_window 20 closes) + 2 * sd
    middle := list_mean (last_window 20 closes)
    lower := list_mean (last_window 20 closes) - 2 * sd }

/-- Modelled from the spec: recursive EMA over the close series, seed =
simple average of the first `w` closes, smoothing factor `α = 2/(w+1)`. -/
def ema (w : ℕ) (closes : List ℚ) : ℚ :=
  (closes.drop w).foldl
    (fun prev c => (2 / ((w : ℚ) + 1)) * c + (1 - 2 / ((w : ℚ) + 1)) * prev)
    (list_mean (closes.take w))

/-- Upward moves of consecutive closes (the clipped `diff` feeding the RSI
average gain). -/
def ups (closes : List ℚ) : List ℚ :=
  (closes.zip closes.tail).map (fun ab => max (ab.2 - ab.1) 0)

/-- Downward moves of consecutive closes (feeding the RSI average loss). -/
def downs (closes : List ℚ) : List ℚ :=
  (closes.zip closes.tail).map (fun ab => max (ab.1 - ab.2) 0)

/-- Modelled from the spec: Wilder's smoothed moving average — seed = simple
mean of the first `w` values, then recursively `avg ↦ (avg·(w−1) + x)/w`. -/
def wilder (w : ℕ) (xs : List ℚ) : ℚ :=
  (xs.drop w).foldl (fun avg x => (avg * ((w : ℚ) - 1) + x) / (w : ℚ))
    (list_mean (xs.take w))

/-- Modelled from the spec: RSI(window=14) = `100 − 100/(1+RS)`,
`RS = avgGain/avgLoss`, Wilder smoothed.  (ℚ division is total; the
float-level behaviour of a 0/0 ratio is a NaN of the external library and
outside this embedding — see C9.) -/
def rsi (w : ℕ) (closes : List ℚ) : ℚ :=
  100 - 100 / (1 + wilder w (ups closes) / wilder w (downs closes))

/-- Per-timeframe indicator set (`indicators[tf]` of the source). -/
structure IndicatorSet where
  RSI : ℚ
  EMA20 : ℚ
  EMA50 : ℚ
  EMA200 : ℚ
  BB : BB3
deriving DecidableEq

/-- Embeds `calculate_indicators` of the web variant: a timeframe is skipped
(`continue`) when `df.empty or len(df) < 20` — emptiness is subsumed by the
length gate — and otherwise the full indicator set is computed from its
close series.  The indicator arithmetic lives in the external `ta` library
and is modelled from the spec (`rsi`, `ema`, `bollinger`); `sd` is the
standard-deviation oracle for the Bollinger window. -/
def calculate_indicators (sd : List ℚ → ℚ) (candles : Timeframe → List Candle) :
    Timeframe → Option IndicatorSet :=
  fun tf =>
    if (tf_closes candles tf).length < 20 then none
    else some
      { RSI := rsi 14 (tf_closes candles tf)
        EMA20 := ema 20 (tf_closes candles tf)
        EMA50 := ema 50 (tf_closes candles tf)
        EMA200 := ema 200 (tf_closes candles tf)
        BB := bollinger (tf_closes candles tf)
          (sd (last_window 20 (tf_closes candles tf))) }

/-- C7.  A timeframe whose close series has fewer than 20 closes — the
minimum gate the source uses (`len(df) < 20`) — is omitted from the cycle's
indicator output: no entry, no error (the computation is total), no partial
set; a timeframe with at least 20 closes gets the complete five-indicator
set computed from its own close series, independent of every other
timeframe. -/
theorem insufficient_data_skip (sd : List ℚ → ℚ) (candles : Timeframe → List Candle)
    (tf : Timeframe) :
    (calculate_indicators sd candles tf = none ↔ (tf_closes candles tf).length < 20) ∧
    ((tf_closes candles tf).length < 20 → calculate_indicators sd candles tf = none) ∧
    (20 ≤ (tf_closes candles tf).length →
      calculate_indicators sd candles tf = some
        { RSI := rsi 14 (tf_closes candles tf)
          EMA20 := ema 20 (tf_closes candles tf)
          EMA50 := ema 50 (tf_closes candles tf)
          EMA200 := ema 200 (tf_closes candles tf)
          BB := bollinger (tf_closes candles tf)
            (sd (last_window 20 (tf_closes candles tf))) }) := by
  unfold calculate_indicators
  by_cases h : (tf_closes candles tf).length < 20
  · simp [h]
  · simp [h]

/-- Sample candle table with 20 closes per timeframe (used by the C7
witness). -/
def sample_candles_20 : Timeframe → List Candle :=
  fun _ => List.replicate 20 ⟨0, 1, 1, 1, 1⟩

/-- Sample candle table with only 5 closes per timeframe (used by the C7
witness). -/
def sample_candles_5 : Timeframe → List Candle :=
  fun _ => List.replicate 5 ⟨0, 1, 1, 1, 1⟩

/-- Witness for C7: 5 closes are skipped with no output entry, 20 closes get
the full indicator set. -/
theorem insufficient_data_skip_witness :
    calculate_indicators (fun _ => 0) sample_candles_5 Timeframe.m1 = none ∧
    calculate_indicators (fun _ => 0) sample_candles_20 Timeframe.h1 = some
      { RSI := rsi 14 (tf_closes sample_candles_20 Timeframe.h1)
        EMA20 := ema 20 (tf_closes sample_candles_20 Timeframe.h1)
        EMA50 := ema 50 (tf_closes sample_candles_20 Timeframe.h1)
        EMA200 := ema 200 (tf_closes sample_candles_20 Timeframe.h1)
        BB := bollinger (tf_closes sample_candles_20 Timeframe.h1)
          ((fun _ => (0 : ℚ)) (last_window 20 (tf_closes sample_candles_20 Timeframe.h1))) } :=
  ⟨(insufficient_data_skip (fun _ => 0) sample_candles_5 Timeframe.m1).2.1
      (by simp [tf_closes, sample_candles_5]),
    (insufficient_data_skip (fun _ => 0) sample_candles_20 Timeframe.h1).2.2
      (by simp [tf_closes, sample_candles_20])⟩

/-- Close series refuting exact symmetry of the 2-decimal-rounded bands:
ten closes at 0.003 and ten at 0.005 (mean 0.004, population stddev exactly
0.001). -/
def cex_closes : List ℚ := List.replicate 10 (3 / 1000) ++ List.replicate 10 (5 / 1000)

/-- Counterexample to C8 as stated: with 20 closes whose window stddev is
exactly `0.001`, the unrounded bands are `0.006 / 0.004 / 0.002`, but
rounding each of the three reported values to 2 decimals (as the web
variant does) gives `0.01 / 0.00 / 0.00`: rounded `upper − middle` is one
cent, rounded `middle − lower` is zero, so the rounded bands are not
symmetric. -/
theorem bollinger_rounded_symmetry_cex :
    20 ≤ cex_closes.length ∧
    IsPopStd (last_window 20 cex_closes) (1 / 1000) ∧
    ¬ (round2 (bollinger cex_closes (1 / 1000)).upper
          - round2 (bollinger cex_closes (1 / 1000)).middle
        = round2 (bollinger cex_closes (1 / 1000)).middle
          - round2 (bollinger cex_closes (1 / 1000)).lower) := by
  have hlen : cex_closes.length = 20 := by simp [cex_closes]
  have hwin : last_window 20 cex_closes = cex_closes := by
    simp [last_window, hlen]
  have hsum : cex_closes.sum = 2 / 25 := by
    simp [cex_closes, List.sum_replicate]
    norm_num
  have hmean : list_mean cex_closes = 1 / 250 := by
    rw [list_mean, hsum, hlen]
    norm_num
  have hvar : pop_var cex_closes = 1 / 1000000 := by
    rw [pop_var]
    rw [show (cex_closes.map (fun x => (x - list_mean cex_closes) ^ 2)).sum = 1 / 50000 by
      simp only [hmean]
      simp [cex_closes, List.map_replicate, List.sum_replicate]
      norm_num]
    rw [hlen]
    norm_num
  have hup : (bollinger cex_closes (1 / 1000)).upper = 3 / 500 := by
    rw [bollinger]
    rw [hwin, hmean]
    norm_num
  have hmid : (bollinger cex_closes (1 / 1000)).middle = 1 / 250 := by
    rw [bollinger]
    rw [hwin, hmean]
  have hlow : (bollinger cex_closes (1 / 1000)).lower = 1 / 500 := by
    rw [bollinger]
    rw [hwin, hmean]
    norm_num
  refine ⟨by rw [hlen], ⟨by norm_num, by rw [hwin, hvar]; norm_num⟩, ?_⟩
  rw [hup, hmid, hlow]
  rw [show round2 (3 / 500) = 1 / 100 by norm_num [round2, rhe, Int.fract, round_eq]]
  rw [show round2 (1 / 250) = 0 by norm_num [round2, rhe, Int.fract, round_eq]]
  rw [show round2 (1 / 500) = 0 by norm_num [round2, rhe, Int.fract, round_eq]]
  norm_num

/-- C8 (amended).  For any close series of at least 20 closes, the Bollinger
middle band equals the simple moving average of the last 20 closes and the
unrounded bands are exactly symmetric (`upper − middle = middle − lower`,
both `2 × stddev`); the web variant's rounded report preserves the middle
band as `round2` of that SMA, but rounding each band to 2 decimals can break
exact symmetry of the differences (by at most one cent), as the
counterexample shows. -/
theorem bollinger_sma_symmetry (closes : List ℚ) (sd : ℚ)
    (hlen : 20 ≤ closes.length) (hsd : IsPopStd (last_window 20 closes) sd) :
    (bollinger closes sd).middle = list_mean (last_window 20 closes) ∧
    (bollinger closes sd).upper - (bollinger closes sd).middle
      = (bollinger closes sd).middle - (bollinger closes sd).lower ∧
    round2 (bollinger closes sd).middle = round2 (list_mean (last_window 20 closes)) := by
  refine ⟨rfl, ?_, rfl⟩
  rw [bollinger]
  ring

/-- Witness for C8 (amended): twenty constant closes with stddev 0. -/
theorem bollinger_sma_symmetry_witness :
    (20 ≤ (List.replicate 20 (1 : ℚ)).length ∧
      IsPopStd (last_window 20 (List.replicate 20 (1 : ℚ))) 0) ∧
    ((bollinger (List.replicate 20 (1 : ℚ)) 0).middle
        = list_mean (last_window 20 (List.replicate 20 (1 : ℚ))) ∧
      (bollinger (List.replicate 20 (1 : ℚ)) 0).upper
          - (bollinger (List.replicate 20 (1 : ℚ)) 0).middle
        = (bollinger (List.replicate 20 (1 : ℚ)) 0).middle
          - (bollinger (List.replicate 20 (1 : ℚ)) 0).lower ∧
      round2 (bollinger (List.replicate 20 (1 : ℚ)) 0).middle
        = round2 (list_mean (last_window 20 (List.replicate 20 (1 : ℚ))))) := by
  have hlen : 20 ≤ (List.replicate 20 (1 : ℚ)).length := by simp
  have hstd : IsPopStd (last_window 20 (List.replicate 20 (1 : ℚ))) 0 := by
    refine ⟨le_refl 0, ?_⟩
    have hm : list_mean (List.replicate 20 (1 : ℚ)) = 1 := by
      simp [list_mean, List.sum_replicate]
      norm_num
    simp only [last_window, List.length_replicate]
    norm_num [pop_var, hm, List.map_replicate, List.sum_replicate]
  exact ⟨⟨hlen, hstd⟩, bollinger_sma_symmetry (List.replicate 20 1) 0 hlen hstd⟩
